import Mathlib

set_option maxHeartbeats 1000000

/- Verification of the sitemap extractor core (src/sitemap_extractor.py):
   fetcher, document classifier, extractors, recursive resolver and the
   CLI entry point around them.

   External Python libraries are modelled as follows.  The XML parser
   (xml.etree.ElementTree.fromstring) is an abstract parameter
   parse : String -> Except String XmlElem, where an error is an
   ET.ParseError carrying its message; the network (requests.get) is an
   abstract fetch capability inside Env; typer.echo to stderr is modelled
   by an explicit log of emitted warning lines (stdout progress echoes and
   the echoes internal to library-level helpers are not logged).  A key
   fact used throughout: typer.Exit derives from click.exceptions.Exit,
   which derives from RuntimeError, so it IS caught by except Exception. -/

/-- Whitespace characters removed by Python `str.strip()` (ASCII range). -/
def isPySpace (c : Char) : Bool :=
  c = ' ' || c = '\t' || c = '\n' || c = '\r' || c = '\x0b' || c = '\x0c'

/-- Python `s.strip()`: surrounding whitespace removed (ASCII model). -/
def pyStrip (s : String) : String :=
  String.mk (((s.data.dropWhile isPySpace).reverse.dropWhile isPySpace).reverse)

/-- Python `s.startswith(p)`. -/
def pyStartsWith (s p : String) : Bool := p.data.isPrefixOf s.data

/-- Python `s.endswith(p)`. -/
def pyEndsWith (s p : String) : Bool := p.data.isSuffixOf s.data

/-- Python `s.split(sep)[0]` for a one-character separator: the characters
before the first occurrence of the separator, the whole string if absent. -/
def pySplitHead (sep : Char) (s : String) : String :=
  String.mk (s.data.takeWhile (fun c => c ≠ sep))

/-- Python `s.strip(ch)` for a one-character strip set. -/
def pyStripChar (ch : Char) (s : String) : String :=
  String.mk (((s.data.dropWhile (fun c => c = ch)).reverse.dropWhile (fun c => c = ch)).reverse)

mutual

/-- A parsed XML element as produced by `xml.etree.ElementTree.fromstring`:
qualified tag (under a default namespace the tag carries the namespace URI
in curly-brace form), the element's text, and its child elements. -/
inductive XmlElem : Type where
  | mk (tag : String) (text : Option String) (children : XmlForest)
deriving DecidableEq

/-- The ordered child elements of an element (document order). -/
inductive XmlForest : Type where
  | nil
  | cons (e : XmlElem) (es : XmlForest)
deriving DecidableEq

end

/-- The element's (possibly namespace-qualified) tag. -/
def XmlElem.tag : XmlElem → String
  | .mk t _ _ => t

/-- The element's text, `none` when the element has no text node. -/
def XmlElem.text : XmlElem → Option String
  | .mk _ t _ => t

/-- The element's children, in document order. -/
def XmlElem.children : XmlElem → XmlForest
  | .mk _ _ c => c

mutual

/-- `root.findall(pattern, ns)` for a `.//tag` search pattern whose
qualified target tag has already been resolved: every descendant of the
root whose tag equals the target, in document order (the root itself is
not a candidate). -/
def findallDesc (target : String) (e : XmlElem) : List XmlElem :=
  match e with
  | XmlElem.mk _ _ cs => findallList target cs

/-- Descendant search over a sibling forest, in document order: a matching
element precedes the matches inside its own subtree, which precede the
matches of the following siblings. -/
def findallList (target : String) (l : XmlForest) : List XmlElem :=
  match l with
  | XmlForest.nil => []
  | XmlForest.cons (XmlElem.mk t tx cs) rest =>
      (if t = target then [XmlElem.mk t tx cs] else [])
        ++ findallList target cs ++ findallList target rest

end

mutual

/-- All proper descendants of an element, in document order. -/
def descElems (e : XmlElem) : List XmlElem :=
  match e with
  | XmlElem.mk _ _ cs => descList cs

/-- All elements of a forest together with their descendants, in document
order. -/
def descList (l : XmlForest) : List XmlElem :=
  match l with
  | XmlForest.nil => []
  | XmlForest.cons (XmlElem.mk t tx cs) rest =>
      XmlElem.mk t tx cs :: (descList cs ++ descList rest)

end

/-- A Python exception as observed by the resolver's handlers:
`typer.Exit(code)` (a `RuntimeError` subclass, hence caught by
`except Exception`) or any other exception carrying a message. -/
inductive PyErr : Type where
  | exit (code : Nat)
  | exc (msg : String)
deriving DecidableEq, Repr

/-- Python `str(e)` for a modelled exception: `typer.Exit` stores only an
exit code and stringifies to the empty string. -/
def pyErrStr : PyErr → String
  | PyErr.exit _ => ""
  | PyErr.exc m => m

/-- `is_sitemap_index` (lines 197-203): parse the document; a parse error
is caught and the document is classified as not an index; otherwise test
whether the root tag ends with `sitemapindex`. -/
def is_sitemap_index (parse : String → Except String XmlElem)
    (xml_content : String) : Bool :=
  match parse xml_content with
  | Except.error _ => false
  | Except.ok root => pyEndsWith root.tag ("sitemapindex")

/-- `extract_sitemaps_from_index` (lines 206-221): parse the document
(echo an error and raise `typer.Exit(1)` on a parse error), resolve the
`.//ns:loc` or `.//loc` search pattern from the root tag's namespace
(`findall` matches the qualified tag `\x7buri\x7dloc` in the namespaced
case), and return the stripped text of every matching descendant whose
text is truthy. -/
def extract_sitemaps_from_index (parse : String → Except String XmlElem)
    (xml_content : String) : Except PyErr (List String) :=
  match parse xml_content with
  | Except.error _ => Except.error (PyErr.exit 1)
  | Except.ok root =>
      let loc_tag :=
        if pyStartsWith root.tag ("\x7b") then
          "\x7b" ++ pyStripChar '{' (pySplitHead '}' root.tag) ++ "\x7dloc"
        else ("loc")
      Except.ok ((findallDesc loc_tag root).filterMap (fun elem =>
        match elem.text with
        | none => none
        | some t => if t = ("") then none else some (pyStrip t)))

/-- `extract_urls_from_sitemap` (lines 224-239): character-for-character
the same body as the index extractor, applied to a leaf sitemap. -/
def extract_urls_from_sitemap (parse : String → Except String XmlElem)
    (xml_content : String) : Except PyErr (List String) :=
  match parse xml_content with
  | Except.error _ => Except.error (PyErr.exit 1)
  | Except.ok root =>
      let loc_tag :=
        if pyStartsWith root.tag ("\x7b") then
          "\x7b" ++ pyStripChar '{' (pySplitHead '}' root.tag) ++ "\x7dloc"
        else ("loc")
      Except.ok ((findallDesc loc_tag root).filterMap (fun elem =>
        match elem.text with
        | none => none
        | some t => if t = ("") then none else some (pyStrip t)))

/-- Result of one `read_sitemap` call as seen by `extract_all_urls`:
content, a `requests.RequestException` (the only class caught at line
253), or any other exception (for instance the `OSError` of a failed
local-file open), which the resolver does not catch at that point. -/
inductive FetchResult : Type where
  | ok (content : String)
  | reqExc (msg : String)
  | otherExc (msg : String)
deriving DecidableEq, Repr

/-- Outcome of one `requests.get` attempt inside `read_sitemap`: either a
response with a status code and body text, or a raised exception whose
message is recorded as `last_exc`. -/
inductive AttemptOutcome : Type where
  | response (status : Nat) (text : String)
  | raised (msg : String)
deriving DecidableEq, Repr

/-- Whether an attempt succeeds (`status_code == 200`, line 141). -/
def attemptSuccess : AttemptOutcome → Bool
  | AttemptOutcome.response status _ => status = 200
  | AttemptOutcome.raised _ => false

/-- The retry loop of `read_sitemap` (lines 115-150): return the body of
the first status-200 response; a raised exception replaces `last_exc`;
when every attempt has been consumed report the final `last_exc`. -/
def attemptLoop (outcomes : List AttemptOutcome) (lastExc : Option String) :
    Except (Option String) String :=
  match outcomes with
  | [] => Except.error lastExc
  | AttemptOutcome.response status text :: rest =>
      if status = 200 then Except.ok text
      else attemptLoop rest lastExc
  | AttemptOutcome.raised msg :: rest => attemptLoop rest (some msg)

/-- Python `f-string` rendering of the `last_exc` variable (`None` when no
attempt raised). -/
def lastExcStr : Option String → String
  | none => "None"
  | some m => m

/-- The `last_exc` value left by the three automated attempts. -/
def lastExcOf (outcomes : List AttemptOutcome) : Option String :=
  (outcomes.take 3).foldl
    (fun acc a => match a with
      | AttemptOutcome.raised m => some m
      | AttemptOutcome.response _ _ => acc)
    none

/-- Message of the `requests.RequestException` raised at line 191. -/
def fetchFailMsg (source : String) (lastExc : Option String) : String :=
  "Failed to fetch " ++ source ++ " after 3 attempts. Last error: " ++ lastExcStr lastExc

/-- The remote branch of `read_sitemap` (lines 112-191): three automated
attempts (`range(3)`), then the interactive Playwright capture when that
capability is present (`none` models `PLAYWRIGHT_AVAILABLE == False`; a
failing capture re-raises as a `requests.RequestException` at line 188),
and otherwise the final `requests.RequestException` of line 191 carrying
`last_exc`; both raises surface to the resolver as `FetchResult.reqExc`. -/
def read_sitemap_remote (attempts : List AttemptOutcome)
    (playwright : Option (Except String String)) (source : String) :
    FetchResult :=
  match attemptLoop (attempts.take 3) none with
  | Except.ok text => FetchResult.ok text
  | Except.error lastExc =>
      match playwright with
      | some (Except.ok content) => FetchResult.ok content
      | some (Except.error e) =>
          FetchResult.reqExc ("Playwright failed for " ++ source ++ ": " ++ e)
      | none => FetchResult.reqExc (fetchFailMsg source lastExc)

/-- The two external capabilities consumed by the resolver: fetching a
document for a source identifier (`read_sitemap`) and parsing XML
(`ET.fromstring`). -/
structure Env : Type where
  fetch : String → FetchResult
  parse : String → Except String XmlElem

/-- Mutable state threaded through one top-level resolution: the `visited`
set (shared by reference across the whole call tree), the instrumentation
trace of sources passed to `read_sitemap` (in call order), and the
stderr log of the resolver's own warnings. -/
structure St : Type where
  visited : List String
  fetched : List String
  log : List String
deriving DecidableEq, Repr

/-- The initial state of a top-level `extract_all_urls(source)` call
(`visited is None` default, line 246). -/
def initSt : St := { visited := [], fetched := [], log := [] }

/-- Warning of line 254. -/
def warnFetchMsg (source msg : String) : String :=
  "[Warning] Could not fetch " ++ source ++ ": " ++ msg

/-- Warning of line 258. -/
def depthMsg (source : String) : String :=
  "Max sitemap index depth reached at " ++ source

/-- Warning of lines 268 and 275 (`e` printed via `str`). -/
def warnParseMsg (src : String) (e : PyErr) : String :=
  "[Warning] Could not parse " ++ src ++ ": " ++ pyErrStr e

/-- `MAX_SITEMAP_DEPTH` (line 42). -/
def MAX_SITEMAP_DEPTH : Nat := 20

deriving instance DecidableEq for Except

/-- Result of a resolver call: the returned URL list or the escaping
exception, together with the state after the call. -/
abbrev Res := Except PyErr (List String) × St

/-- The child loop of `extract_all_urls` (lines 262-270): each child is
resolved in document order; a raised exception from a child is caught by
`except Exception`, a warning is emitted and the loop continues with the
next child; URL lists of successful children are concatenated. -/
def childLoop (step : String → St → Res) (children : List String)
    (acc : List String) (st : St) : List String × St :=
  match children with
  | [] => (acc, st)
  | child :: rest =>
      match step child st with
      | (Except.ok urls, st') => childLoop step rest (acc ++ urls) st'
      | (Except.error e, st') =>
          childLoop step rest acc
            { st' with log := st'.log ++ [warnParseMsg child e] }

/-- The body of `extract_all_urls` (lines 242-276), made total by a fuel
argument that bounds the remaining recursion depth; since the code only
recurses when `depth < MAX_SITEMAP_DEPTH` held for an index document, the
fuel chosen by `extract_all_urls` is never exhausted (its zero branch is
dead, see `extract_all_urls_eq`).  Branches, in code order: the cycle
guard (lines 248-249) returns empty and changes nothing; `visited.add`
(line 250); `read_sitemap` (line 252, recorded in the fetch trace), where
a `requests.RequestException` is caught with a warning (lines 253-255)
and any other exception propagates; classification (line 256); for an
index, the depth guard (lines 257-259), child extraction (line 261, a
raised `typer.Exit` would propagate here) and the child loop; for a leaf,
`extract_urls_from_sitemap` under `except Exception` (lines 272-276). -/
def extractFuel (env : Env) : Nat → String → Nat → St → Res
  | 0, _, _, st => (Except.ok [], st)
  | fuel+1, source, depth, st =>
      if source ∈ st.visited then (Except.ok [], st)
      else
        let st2 : St := { st with visited := source :: st.visited,
                                  fetched := st.fetched ++ [source] }
        match env.fetch source with
        | FetchResult.reqExc msg =>
            (Except.ok [], { st2 with log := st2.log ++ [warnFetchMsg source msg] })
        | FetchResult.otherExc msg => (Except.error (PyErr.exc msg), st2)
        | FetchResult.ok xml_content =>
            if is_sitemap_index env.parse xml_content then
              if MAX_SITEMAP_DEPTH ≤ depth then
                (Except.ok [], { st2 with log := st2.log ++ [depthMsg source] })
              else
                match extract_sitemaps_from_index env.parse xml_content with
                | Except.error e => (Except.error e, st2)
                | Except.ok child_sitemaps =>
                    let r := childLoop (fun c s => extractFuel env fuel c (depth+1) s)
                      child_sitemaps [] st2
                    (Except.ok r.1, r.2)
            else
              match extract_urls_from_sitemap env.parse xml_content with
              | Except.ok urls => (Except.ok urls, st2)
              | Except.error e =>
                  (Except.ok [], { st2 with log := st2.log ++ [warnParseMsg source e] })

/-- Fuel that always suffices for a call entered at the given depth: the
code recurses only while `depth < MAX_SITEMAP_DEPTH`, so at most
`MAX_SITEMAP_DEPTH + 1 - depth` nested calls are live, and one unit
covers any call entered at or beyond the limit. -/
def fuelFor (depth : Nat) : Nat :=
  MAX_SITEMAP_DEPTH + 1 - min depth MAX_SITEMAP_DEPTH

/-- `extract_all_urls(source, depth, visited)` (lines 242-276). -/
def extract_all_urls (env : Env) (source : String) (depth : Nat) (st : St) : Res :=
  extractFuel env (fuelFor depth) source depth st

/-- The resolution part of `main` (lines 391-400): any exception escaping
`extract_all_urls` is caught and the process exits 1; an empty URL list
exits 1 (lines 393-395); otherwise the URLs are exported and the process
exits 0 (output serialization is out of core scope and modelled as
succeeding). -/
def main_run (env : Env) (source : String) : Nat :=
  match extract_all_urls env source 0 initSt with
  | (Except.error _, _) => 1
  | (Except.ok urls, _) => if urls = [] then 1 else 0

/-- Environment induced by a finite table of documents: fetching a known
source succeeds and returns the source identifier itself as document
content; parsing the content of a known source yields its parsed tree;
anything else fails. -/
def mkEnv (docs : List (String × XmlElem)) : Env :=
  { fetch := fun s =>
      match docs.lookup s with
      | some _ => FetchResult.ok s
      | none => FetchResult.reqExc ("connection error")
    parse := fun s =>
      match docs.lookup s with
      | some d => Except.ok d
      | none => Except.error ("syntax error") }

/-- A `loc` element holding one URL string. -/
def locElem (s : String) : XmlElem := XmlElem.mk ("loc") (some s) XmlForest.nil

/-- A `url` entry of a leaf sitemap. -/
def urlEntry (s : String) : XmlElem :=
  XmlElem.mk ("url") none (XmlForest.cons (locElem s) XmlForest.nil)

/-- Forest of a list of elements, preserving order. -/
def forestOf : List XmlElem → XmlForest
  | [] => XmlForest.nil
  | e :: es => XmlForest.cons e (forestOf es)

/-- `<urlset>` leaf document with the given `loc` texts. -/
def leafDoc (urls : List String) : XmlElem :=
  XmlElem.mk ("urlset") none (forestOf (urls.map urlEntry))

/-- A `sitemap` entry of an index document. -/
def smEntry (s : String) : XmlElem :=
  XmlElem.mk ("sitemap") none (XmlForest.cons (locElem s) XmlForest.nil)

/-- `<sitemapindex>` document referencing the given child sources. -/
def indexDoc (srcs : List String) : XmlElem :=
  XmlElem.mk ("sitemapindex") none (forestOf (srcs.map smEntry))

mutual

/-- An acyclic index tree of sitemap documents: a leaf document carries
its URL list, an index document carries its child documents; every node
is identified by its Source Identifier. -/
inductive SitemapTree : Type where
  | leaf (source : String) (urls : List String)
  | index (source : String) (children : SitemapForest)
deriving DecidableEq

/-- The ordered children of an index document. -/
inductive SitemapForest : Type where
  | nil
  | cons (t : SitemapTree) (ts : SitemapForest)
deriving DecidableEq

end

/-- The Source Identifier of a document node. -/
def SitemapTree.source : SitemapTree → String
  | .leaf s _ => s
  | .index s _ => s

/-- The sources of the root documents of a forest, in document order. -/
def childSources : SitemapForest → List String
  | SitemapForest.nil => []
  | SitemapForest.cons t ts => t.source :: childSources ts

mutual

/-- All Source Identifiers of a tree, in depth-first document order. -/
def sourcesOf (t : SitemapTree) : List String :=
  match t with
  | SitemapTree.leaf s _ => [s]
  | SitemapTree.index s cs => s :: sourcesForest cs

/-- All Source Identifiers of a forest, in depth-first document order. -/
def sourcesForest (l : SitemapForest) : List String :=
  match l with
  | SitemapForest.nil => []
  | SitemapForest.cons t ts => sourcesOf t ++ sourcesForest ts

end

mutual

/-- Concatenation, in depth-first document order, of the URL lists of all
leaf documents of the tree. -/
def leafURLs (t : SitemapTree) : List String :=
  match t with
  | SitemapTree.leaf _ urls => urls
  | SitemapTree.index _ cs => leafURLsForest cs

/-- Depth-first concatenation of the leaf URL lists of a forest. -/
def leafURLsForest (l : SitemapForest) : List String :=
  match l with
  | SitemapForest.nil => []
  | SitemapForest.cons t ts => leafURLs t ++ leafURLsForest ts

end

mutual

/-- The `visited` set produced by resolving the tree starting from the
given set (the code inserts each source on entry, so insertion order is
depth-first). -/
def visitTree (t : SitemapTree) (v : List String) : List String :=
  match t with
  | SitemapTree.leaf s _ => s :: v
  | SitemapTree.index s cs => visitForest cs (s :: v)

/-- `visitTree` folded over a forest, left to right. -/
def visitForest (l : SitemapForest) (v : List String) : List String :=
  match l with
  | SitemapForest.nil => v
  | SitemapForest.cons t ts => visitForest ts (visitTree t v)

end

/-- A string that survives the extractor unchanged: non-empty (truthy in
Python) and free of surrounding whitespace (`strip` is the identity).
Realistic sources and URLs are of this shape; a `loc` text with
surrounding whitespace denotes the same document as its stripped form. -/
def cleanStr (s : String) : Bool := (s != ("")) && (pyStrip s == s)

mutual

/-- Every source and every leaf URL of the tree is clean. -/
def cleanTree (t : SitemapTree) : Bool :=
  match t with
  | SitemapTree.leaf s urls => cleanStr s && urls.all cleanStr
  | SitemapTree.index s cs => cleanStr s && cleanForest cs

/-- `cleanTree` over a forest. -/
def cleanForest (l : SitemapForest) : Bool :=
  match l with
  | SitemapForest.nil => true
  | SitemapForest.cons t ts => cleanTree t && cleanForest ts

end

mutual

/-- Every index node of the tree, with the root placed at the given
depth, lies strictly below `MAX_SITEMAP_DEPTH`; such trees are resolved
without hitting the depth guard. -/
def treeOK (t : SitemapTree) (depth : Nat) : Bool :=
  match t with
  | SitemapTree.leaf _ _ => true
  | SitemapTree.index _ cs => decide (depth < MAX_SITEMAP_DEPTH) && forestOK cs (depth + 1)

/-- `treeOK` over a forest of children at the given depth. -/
def forestOK (l : SitemapForest) (depth : Nat) : Bool :=
  match l with
  | SitemapForest.nil => true
  | SitemapForest.cons t ts => treeOK t depth && forestOK ts depth

end

/-- The document of a node: a `<urlset>` for a leaf, a `<sitemapindex>`
listing the child sources for an index. -/
def docOf : SitemapTree → XmlElem
  | SitemapTree.leaf _ urls => leafDoc urls
  | SitemapTree.index _ cs => indexDoc (childSources cs)

mutual

/-- The document table of a tree: each node's source paired with its
parsed document, in depth-first document order. -/
def treeAssoc (t : SitemapTree) : List (String × XmlElem) :=
  match t with
  | SitemapTree.leaf s urls => [(s, leafDoc urls)]
  | SitemapTree.index s cs => (s, indexDoc (childSources cs)) :: forestAssoc cs

/-- Document tables of a forest, concatenated. -/
def forestAssoc (l : SitemapForest) : List (String × XmlElem) :=
  match l with
  | SitemapForest.nil => []
  | SitemapForest.cons t ts => treeAssoc t ++ forestAssoc ts

end

/-- The environment realizing a tree of documents. -/
def treeEnv (t : SitemapTree) : Env := mkEnv (treeAssoc t)

mutual

/-- The environment serves every node of the tree: fetching the node's
source succeeds with the source itself as content, and parsing that
content yields the node's document. -/
def envAgrees (env : Env) (t : SitemapTree) : Prop :=
  match t with
  | SitemapTree.leaf s urls =>
      env.fetch s = FetchResult.ok s ∧ env.parse s = Except.ok (leafDoc urls)
  | SitemapTree.index s cs =>
      env.fetch s = FetchResult.ok s
        ∧ env.parse s = Except.ok (indexDoc (childSources cs))
        ∧ envAgreesForest env cs

/-- `envAgrees` for every tree of a forest. -/
def envAgreesForest (env : Env) (l : SitemapForest) : Prop :=
  match l with
  | SitemapForest.nil => True
  | SitemapForest.cons t ts => envAgrees env t ∧ envAgreesForest env ts

end

/-- Trace invariant for C2: the fetch trace has no duplicates, and every
fetched source has been inserted into the visited set. -/
def FetchInv (st : St) : Prop :=
  st.fetched.Nodup ∧ ∀ s ∈ st.fetched, s ∈ st.visited

/-- The local part of a possibly namespace-qualified ElementTree tag: the
characters after the closing brace when the tag opens with a brace, the
tag itself otherwise. -/
def localName (tag : String) : String :=
  if pyStartsWith tag ("\x7b") then
    String.mk ((tag.data.dropWhile (fun c => c ≠ '}')).drop 1)
  else tag

/-- The namespace prefix the extractors pair with `loc`, computed from the
root tag exactly as lines 213-219 do (empty for an unqualified root). -/
def nsPre (rootTag : String) : String :=
  if pyStartsWith rootTag ("\x7b") then
    "\x7b" ++ pyStripChar '{' (pySplitHead '}' rootTag) ++ "\x7d"
  else ("")

/-- Modelled from the spec (section 4.3 and C3): collect the text of every
descendant element whose local tag name is `loc`, trimmed of surrounding
whitespace, in document order, excluding elements whose text is absent,
empty, or whitespace-only. -/
def spec_extract_urls (root : XmlElem) : List String :=
  ((descElems root).filter (fun e => localName e.tag == ("loc"))).filterMap
    (fun e =>
      match e.text with
      | none => none
      | some t => if pyStrip t = ("") then none else some (pyStrip t))

/-- Leaf document with one ordinary `loc` and one whitespace-only `loc`. -/
def wsDoc : XmlElem :=
  XmlElem.mk ("urlset") none
    (XmlForest.cons (urlEntry ("https://a.test/x"))
      (XmlForest.cons
        (XmlElem.mk ("url") none
          (XmlForest.cons (XmlElem.mk ("loc") (some ("   ")) XmlForest.nil) XmlForest.nil))
        XmlForest.nil))

/-- Parser table serving `wsDoc` under one source name. -/
def parseWs : String → Except String XmlElem :=
  fun s => if s = ("leaf.xml") then Except.ok wsDoc else Except.error ("syntax error")

/-- The sitemap protocol namespace URI. -/
def SM_NS : String := "http://www.sitemaps.org/schemas/sitemap/0.9"

/-- A tag qualified by the sitemap namespace, in ElementTree notation. -/
def nsTag (lp : String) : String := "\x7b" ++ SM_NS ++ "\x7d" ++ lp

/-- A namespaced leaf document whose single `loc` text carries surrounding
whitespace. -/
def nsLeafDoc : XmlElem :=
  XmlElem.mk (nsTag ("urlset")) none
    (XmlForest.cons
      (XmlElem.mk (nsTag ("url")) none
        (XmlForest.cons
          (XmlElem.mk (nsTag ("loc")) (some (" https://a.test/x ")) XmlForest.nil)
          XmlForest.nil))
      XmlForest.nil)

/-- Parser table serving `nsLeafDoc` under one source name. -/
def parseNsLeaf : String → Except String XmlElem :=
  fun s => if s = ("ns.xml") then Except.ok nsLeafDoc else Except.error ("syntax error")

/-- A two-leaf index tree used to exercise the acyclic-tree theorem. -/
def tree1 : SitemapTree :=
  SitemapTree.index ("root.xml")
    (SitemapForest.cons (SitemapTree.leaf ("a.xml") ["u1"])
      (SitemapForest.cons (SitemapTree.leaf ("b.xml") ["u2"]) SitemapForest.nil))

/-- A chain of nested index documents ending in a one-URL leaf: the node
at depth `i` is called `s<i>`, and the argument counts the remaining
index levels. -/
def chainFrom (i : Nat) : Nat → SitemapTree
  | 0 => SitemapTree.leaf ("s" ++ Nat.repr i) ["u"]
  | k + 1 =>
      SitemapTree.index ("s" ++ Nat.repr i)
        (SitemapForest.cons (chainFrom (i + 1) k) SitemapForest.nil)

/-- A 21-level index chain: its deepest index node sits at depth 20, which
is where the resolver's depth guard prunes the traversal. -/
def deepTree : SitemapTree := chainFrom 0 21

/-- Environment with an index of a malformed child followed by a good
child: `bad` fetches but does not parse, `good` is a one-URL leaf. -/
def env4 : Env :=
  { fetch := fun s =>
      if s = ("root") || s = ("bad") || s = ("good") then FetchResult.ok s
      else FetchResult.reqExc ("connection error")
    parse := fun s =>
      if s = ("root") then Except.ok (indexDoc ["bad", "good"])
      else if s = ("good") then Except.ok (leafDoc ["u2"])
      else Except.error ("not well-formed (invalid token)") }

/-- Environment in which every fetch fails with a RequestException. -/
def env6 : Env :=
  { fetch := fun _ => FetchResult.reqExc ("HTTP 403")
    parse := fun _ => Except.error ("syntax error") }

/-- Environment realizing an index that references itself between two
ordinary leaves. -/
def envC9 : Env :=
  mkEnv [("root", indexDoc ["a", "root", "b"]),
         ("a", leafDoc ["u1"]), ("b", leafDoc ["u2"])]

/-- Environment of a single index document, used at the depth limit. -/
def envC8 : Env := mkEnv [("i", indexDoc ["a"])]

/-- A parser that fails on every input, as on malformed XML. -/
def parseFail : String → Except String XmlElem :=
  fun _ => Except.error ("not well-formed (invalid token): line 1, column 0")

/-- Three failed attempts: two non-success statuses, then an exception. -/
def attempts7 : List AttemptOutcome :=
  [AttemptOutcome.response 403 (""), AttemptOutcome.response 503 (""),
   AttemptOutcome.raised ("ConnectionError: connection reset")]

/-- Environment whose fetch of the remote source fails with exactly the
message `read_sitemap` builds after `attempts7`. -/
def env7 : Env :=
  { fetch := fun s =>
      if s = ("https://x.test/sitemap.xml") then
        FetchResult.reqExc (fetchFailMsg ("https://x.test/sitemap.xml") (lastExcOf attempts7))
      else FetchResult.ok s
    parse := fun _ => Except.error ("syntax error") }

theorem fuelFor_pos (depth : Nat) : 1 ≤ fuelFor depth := by
  unfold fuelFor MAX_SITEMAP_DEPTH
  omega

theorem fuelFor_pred (depth : Nat) (h : depth < MAX_SITEMAP_DEPTH) :
    fuelFor depth - 1 = fuelFor (depth + 1) := by
  unfold fuelFor MAX_SITEMAP_DEPTH at *
  omega

theorem extract_all_urls_fuel (env : Env) (source : String) (depth : Nat) (st : St) :
    extract_all_urls env source depth st
      = extractFuel env ((fuelFor depth - 1) + 1) source depth st := by
  unfold extract_all_urls
  congr 1
  have := fuelFor_pos depth
  omega

theorem resolve_cycle (env : Env) (source : String) (depth : Nat) (st : St)
    (h : source ∈ st.visited) :
    extract_all_urls env source depth st = (Except.ok [], st) := by
  rw [extract_all_urls_fuel]
  simp [extractFuel, h]

theorem resolve_fetch_fail (env : Env) (source : String) (depth : Nat) (st : St)
    (msg : String) (hv : source ∉ st.visited)
    (hf : env.fetch source = FetchResult.reqExc msg) :
    extract_all_urls env source depth st
      = (Except.ok [],
         { visited := source :: st.visited, fetched := st.fetched ++ [source],
           log := st.log ++ [warnFetchMsg source msg] }) := by
  rw [extract_all_urls_fuel]
  simp [extractFuel, hv, hf]

theorem resolve_fetch_ioerror (env : Env) (source : String) (depth : Nat) (st : St)
    (msg : String) (hv : source ∉ st.visited)
    (hf : env.fetch source = FetchResult.otherExc msg) :
    extract_all_urls env source depth st
      = (Except.error (PyErr.exc msg),
         { visited := source :: st.visited, fetched := st.fetched ++ [source],
           log := st.log }) := by
  rw [extract_all_urls_fuel]
  simp [extractFuel, hv, hf]

theorem resolve_depth (env : Env) (source : String) (depth : Nat) (st : St)
    (content : String) (hv : source ∉ st.visited)
    (hf : env.fetch source = FetchResult.ok content)
    (hidx : is_sitemap_index env.parse content = true)
    (hd : MAX_SITEMAP_DEPTH ≤ depth) :
    extract_all_urls env source depth st
      = (Except.ok [],
         { visited := source :: st.visited, fetched := st.fetched ++ [source],
           log := st.log ++ [depthMsg source] }) := by
  rw [extract_all_urls_fuel]
  simp [extractFuel, hv, hf, hidx, hd]

theorem resolve_leaf_ok (env : Env) (source : String) (depth : Nat) (st : St)
    (content : String) (urls : List String) (hv : source ∉ st.visited)
    (hf : env.fetch source = FetchResult.ok content)
    (hidx : is_sitemap_index env.parse content = false)
    (hx : extract_urls_from_sitemap env.parse content = Except.ok urls) :
    extract_all_urls env source depth st
      = (Except.ok urls,
         { visited := source :: st.visited, fetched := st.fetched ++ [source],
           log := st.log }) := by
  rw [extract_all_urls_fuel]
  simp [extractFuel, hv, hf, hidx, hx]

theorem resolve_leaf_err (env : Env) (source : String) (depth : Nat) (st : St)
    (content : String) (e : PyErr) (hv : source ∉ st.visited)
    (hf : env.fetch source = FetchResult.ok content)
    (hidx : is_sitemap_index env.parse content = false)
    (hx : extract_urls_from_sitemap env.parse content = Except.error e) :
    extract_all_urls env source depth st
      = (Except.ok [],
         { visited := source :: st.visited, fetched := st.fetched ++ [source],
           log := st.log ++ [warnParseMsg source e] }) := by
  rw [extract_all_urls_fuel]
  simp [extractFuel, hv, hf, hidx, hx]

theorem resolve_index (env : Env) (source : String) (depth : Nat) (st : St)
    (content : String) (childs : List String) (hv : source ∉ st.visited)
    (hf : env.fetch source = FetchResult.ok content)
    (hidx : is_sitemap_index env.parse content = true)
    (hd : depth < MAX_SITEMAP_DEPTH)
    (hx : extract_sitemaps_from_index env.parse content = Except.ok childs) :
    extract_all_urls env source depth st
      = (let r := childLoop (fun c s => extract_all_urls env c (depth + 1) s) childs []
           { visited := source :: st.visited, fetched := st.fetched ++ [source],
             log := st.log }
         (Except.ok r.1, r.2)) := by
  have hfix : (fun c s => extractFuel env (fuelFor depth - 1) c (depth + 1) s)
      = (fun c s => extract_all_urls env c (depth + 1) s) := by
    funext c s
    rw [fuelFor_pred depth hd]
    rfl
  rw [extract_all_urls_fuel]
  simp only [extractFuel]
  rw [hfix]
  simp [hv, hf, hidx, hx, show ¬ MAX_SITEMAP_DEPTH ≤ depth from by omega]

mutual

theorem mem_visitTree (t : SitemapTree) (v : List String) (x : String) :
    x ∈ visitTree t v ↔ x ∈ sourcesOf t ∨ x ∈ v := by
  cases t with
  | leaf s urls => simp [visitTree, sourcesOf]
  | index s cs =>
      rw [show visitTree (SitemapTree.index s cs) v = visitForest cs (s :: v) from rfl]
      rw [mem_visitForest cs (s :: v) x]
      simp [sourcesOf]
      tauto

theorem mem_visitForest (l : SitemapForest) (v : List String) (x : String) :
    x ∈ visitForest l v ↔ x ∈ sourcesForest l ∨ x ∈ v := by
  cases l with
  | nil => simp [visitForest, sourcesForest]
  | cons t ts =>
      rw [show visitForest (SitemapForest.cons t ts) v = visitForest ts (visitTree t v) from rfl]
      rw [mem_visitForest ts (visitTree t v) x, mem_visitTree t v x]
      simp [sourcesForest]
      tauto

end

theorem childLoopInv (step : String → St → Res)
    (hstep : ∀ c st, FetchInv st →
      FetchInv ((step c st).2) ∧ ∀ x ∈ st.visited, x ∈ ((step c st).2).visited) :
    ∀ (children acc : List String) (st : St), FetchInv st →
      FetchInv ((childLoop step children acc st).2)
        ∧ ∀ x ∈ st.visited, x ∈ ((childLoop step children acc st).2).visited := by
  intro children
  induction children with
  | nil => exact fun acc st h => ⟨h, fun x hx => hx⟩
  | cons c rest ih =>
      intro acc st h
      have hs := hstep c st h
      rcases hr : step c st with ⟨res, st'⟩
      rw [hr] at hs
      cases res with
      | ok urls =>
          have := ih (acc ++ urls) st' hs.1
          simp only [childLoop, hr]
          exact ⟨this.1, fun x hx => this.2 x (hs.2 x hx)⟩
      | error e =>
          have hlog : FetchInv { st' with log := st'.log ++ [warnParseMsg c e] } := hs.1
          have := ih acc { st' with log := st'.log ++ [warnParseMsg c e] } hlog
          simp only [childLoop, hr]
          exact ⟨this.1, fun x hx => this.2 x (hs.2 x hx)⟩

theorem extractFuelInv (env : Env) :
    ∀ (fuel : Nat) (source : String) (depth : Nat) (st : St), FetchInv st →
      FetchInv ((extractFuel env fuel source depth st).2)
        ∧ ∀ x ∈ st.visited, x ∈ ((extractFuel env fuel source depth st).2).visited := by
  intro fuel
  induction fuel with
  | zero => exact fun source depth st h => ⟨h, fun x hx => hx⟩
  | succ fuel ih =>
      intro source depth st h
      by_cases hv : source ∈ st.visited
      · simp only [extractFuel, if_pos hv]
        exact ⟨h, fun x hx => hx⟩
      · have hnf : source ∉ st.fetched := fun hc => hv (h.2 source hc)
        have hst2 : FetchInv
            { st with visited := source :: st.visited, fetched := st.fetched ++ [source] } := by
          refine ⟨?_, ?_⟩
          · simpa [List.nodup_append, hnf] using h.1
          · intro s hs
            rcases List.mem_append.mp hs with h1 | h1
            · exact List.mem_cons_of_mem _ (h.2 s h1)
            · rcases List.mem_singleton.mp h1 with rfl
              exact List.mem_cons_self _ _
        have hmono2 : ∀ x ∈ st.visited,
            x ∈ ({ st with visited := source :: st.visited,
                           fetched := st.fetched ++ [source] } : St).visited :=
          fun x hx => List.mem_cons_of_mem _ hx
        simp only [extractFuel, if_neg hv]
        cases hf : env.fetch source with
        | reqExc msg => exact ⟨hst2, hmono2⟩
        | otherExc msg => exact ⟨hst2, hmono2⟩
        | ok xml_content =>
            by_cases hidx : is_sitemap_index env.parse xml_content
            · simp only [hidx, if_pos]
              by_cases hd : MAX_SITEMAP_DEPTH ≤ depth
              · simp only [if_pos hd]
                exact ⟨hst2, hmono2⟩
              · simp only [if_neg hd]
                cases hx : extract_sitemaps_from_index env.parse xml_content with
                | error e => exact ⟨hst2, hmono2⟩
                | ok child_sitemaps =>
                    have hcl := childLoopInv
                      (fun c s => extractFuel env fuel c (depth + 1) s)
                      (fun c s hinv => ih c (depth + 1) s hinv)
                      child_sitemaps []
                      { st with visited := source :: st.visited,
                                fetched := st.fetched ++ [source] } hst2
                    exact ⟨hcl.1, fun x hx' => hcl.2 x (hmono2 x hx')⟩
            · simp only [hidx, if_neg, Bool.false_eq_true]
              cases hx : extract_urls_from_sitemap env.parse xml_content with
              | ok urls => exact ⟨hst2, hmono2⟩
              | error e => exact ⟨hst2, hmono2⟩

theorem is_sitemap_index_leafDoc (parse : String → Except String XmlElem)
    (c : String) (urls : List String) (h : parse c = Except.ok (leafDoc urls)) :
    is_sitemap_index parse c = false := by
  simp only [is_sitemap_index, h, leafDoc, XmlElem.tag]
  decide

theorem is_sitemap_index_indexDoc (parse : String → Except String XmlElem)
    (c : String) (srcs : List String) (h : parse c = Except.ok (indexDoc srcs)) :
    is_sitemap_index parse c = true := by
  simp only [is_sitemap_index, h, indexDoc, XmlElem.tag]
  decide

theorem findall_loc_urlForest (urls : List String) :
    findallList ("loc") (forestOf (urls.map urlEntry)) = urls.map locElem := by
  induction urls with
  | nil => rfl
  | cons u us ih =>
      simp only [List.map_cons, forestOf, urlEntry, locElem, findallList,
        show ("url" : String) = ("loc") ↔ False from by simp, if_false, iff_false]
      simp [ih, locElem, findallList]

theorem findall_loc_smForest (srcs : List String) :
    findallList ("loc") (forestOf (srcs.map smEntry)) = srcs.map locElem := by
  induction srcs with
  | nil => rfl
  | cons u us ih =>
      simp only [List.map_cons, forestOf, smEntry, locElem, findallList,
        show ("sitemap" : String) = ("loc") ↔ False from by simp, if_false, iff_false]
      simp [ih, locElem, findallList]

theorem filterMap_locElem_clean (urls : List String) (hc : urls.all cleanStr = true) :
    (urls.map locElem).filterMap (fun elem =>
        match elem.text with
        | none => none
        | some t => if t = ("") then none else some (pyStrip t)) = urls := by
  induction urls with
  | nil => rfl
  | cons u us ih =>
      rw [List.all_cons, Bool.and_eq_true] at hc
      have hu : u ≠ ("") ∧ pyStrip u = u := by
        have := hc.1
        rw [cleanStr, Bool.and_eq_true, bne_iff_ne, beq_iff_eq] at this
        exact ⟨this.1, this.2⟩
      have hf : (match (locElem u).text with
          | none => none
          | some t => if t = ("") then none else some (pyStrip t))
            = some u := by
        simp [locElem, XmlElem.text, hu.1, hu.2]
      rw [List.map_cons, List.filterMap_cons, hf]
      exact congrArg (u :: ·) (ih hc.2)

theorem extract_urls_leafDoc (parse : String → Except String XmlElem)
    (c : String) (urls : List String) (h : parse c = Except.ok (leafDoc urls))
    (hc : urls.all cleanStr = true) :
    extract_urls_from_sitemap parse c = Except.ok urls := by
  simp only [extract_urls_from_sitemap, h, leafDoc, XmlElem.tag, XmlElem.children, findallDesc]
  rw [show pyStartsWith ("urlset") ("\x7b") = false from by decide]
  simp only [Bool.false_eq_true, if_false]
  rw [show forestOf (urls.map urlEntry)
      = XmlElem.children (leafDoc urls) from rfl]
  simp only [leafDoc, XmlElem.children]
  rw [findall_loc_urlForest urls, filterMap_locElem_clean urls hc]

theorem extract_sitemaps_indexDoc (parse : String → Except String XmlElem)
    (c : String) (srcs : List String) (h : parse c = Except.ok (indexDoc srcs))
    (hc : srcs.all cleanStr = true) :
    extract_sitemaps_from_index parse c = Except.ok srcs := by
  simp only [extract_sitemaps_from_index, h, indexDoc, XmlElem.tag, XmlElem.children, findallDesc]
  rw [show pyStartsWith ("sitemapindex") ("\x7b") = false from by decide]
  simp only [Bool.false_eq_true, if_false]
  rw [show forestOf (srcs.map smEntry)
      = XmlElem.children (indexDoc srcs) from rfl]
  simp only [indexDoc, XmlElem.children]
  rw [findall_loc_smForest srcs, filterMap_locElem_clean srcs hc]

theorem cleanStr_source (t : SitemapTree) (h : cleanTree t = true) :
    cleanStr t.source = true := by
  cases t with
  | leaf s urls =>
      rw [show cleanTree (SitemapTree.leaf s urls) = (cleanStr s && urls.all cleanStr) from rfl,
        Bool.and_eq_true] at h
      exact h.1
  | index s cs =>
      rw [show cleanTree (SitemapTree.index s cs) = (cleanStr s && cleanForest cs) from rfl,
        Bool.and_eq_true] at h
      exact h.1

theorem childSources_clean (l : SitemapForest) (h : cleanForest l = true) :
    (childSources l).all cleanStr = true := by
  cases l with
  | nil => rfl
  | cons t ts =>
      rw [show cleanForest (SitemapForest.cons t ts) = (cleanTree t && cleanForest ts) from rfl,
        Bool.and_eq_true] at h
      rw [show childSources (SitemapForest.cons t ts) = t.source :: childSources ts from rfl,
        List.all_cons, Bool.and_eq_true]
      exact ⟨cleanStr_source t h.1, childSources_clean ts h.2⟩

theorem source_mem_sourcesOf (t : SitemapTree) : t.source ∈ sourcesOf t := by
  cases t with
  | leaf s urls => simp [SitemapTree.source, sourcesOf]
  | index s cs => simp [SitemapTree.source, sourcesOf]

mutual

theorem resolveTree_ok (env : Env) (t : SitemapTree) (depth : Nat) (st : St)
    (ha : envAgrees env t) (hn : (sourcesOf t).Nodup) (hc : cleanTree t = true)
    (hok : treeOK t depth = true) (hdep : depth ≤ MAX_SITEMAP_DEPTH)
    (hdisj : ∀ s ∈ sourcesOf t, s ∉ st.visited) :
    extract_all_urls env t.source depth st
      = (Except.ok (leafURLs t),
         { visited := visitTree t st.visited,
           fetched := st.fetched ++ sourcesOf t, log := st.log }) := by
  cases t with
  | leaf s urls =>
      have hag : env.fetch s = FetchResult.ok s
          ∧ env.parse s = Except.ok (leafDoc urls) := ha
      have hv : s ∉ st.visited := hdisj s (by simp [sourcesOf])
      have hcu : urls.all cleanStr = true := by
        rw [show cleanTree (SitemapTree.leaf s urls) = (cleanStr s && urls.all cleanStr) from rfl,
          Bool.and_eq_true] at hc
        exact hc.2
      have hidx := is_sitemap_index_leafDoc env.parse s urls hag.2
      have hx := extract_urls_leafDoc env.parse s urls hag.2 hcu
      rw [show SitemapTree.source (SitemapTree.leaf s urls) = s from rfl,
        resolve_leaf_ok env s depth st s urls hv hag.1 hidx hx]
      rfl
  | index s cs =>
      have hag : env.fetch s = FetchResult.ok s
          ∧ env.parse s = Except.ok (indexDoc (childSources cs))
          ∧ envAgreesForest env cs := ha
      have hv : s ∉ st.visited := hdisj s (by simp [sourcesOf])
      have hn' : s ∉ sourcesForest cs ∧ (sourcesForest cs).Nodup := by
        rw [show sourcesOf (SitemapTree.index s cs) = s :: sourcesForest cs from rfl,
          List.nodup_cons] at hn
        exact hn
      have hcl : cleanStr s = true ∧ cleanForest cs = true := by
        rw [show cleanTree (SitemapTree.index s cs) = (cleanStr s && cleanForest cs) from rfl,
          Bool.and_eq_true] at hc
        exact hc
      have hokd : depth < MAX_SITEMAP_DEPTH ∧ forestOK cs (depth + 1) = true := by
        rw [show treeOK (SitemapTree.index s cs) depth
            = (decide (depth < MAX_SITEMAP_DEPTH) && forestOK cs (depth + 1)) from rfl,
          Bool.and_eq_true, decide_eq_true_iff] at hok
        exact hok
      have hsrcs := childSources_clean cs hcl.2
      have hidx := is_sitemap_index_indexDoc env.parse s (childSources cs) hag.2.1
      have hxi := extract_sitemaps_indexDoc env.parse s (childSources cs) hag.2.1 hsrcs
      have hdisj' : ∀ x ∈ sourcesForest cs,
          x ∉ ({ st with visited := s :: st.visited,
                         fetched := st.fetched ++ [s] } : St).visited := by
        intro x hx hmem
        rcases List.mem_cons.mp hmem with rfl | hmem'
        · exact hn'.1 hx
        · exact hdisj x (by
            rw [show sourcesOf (SitemapTree.index s cs) = s :: sourcesForest cs from rfl]
            exact List.mem_cons_of_mem _ hx) hmem'
      have hloop := resolveForest_ok env cs (depth + 1)
        { st with visited := s :: st.visited, fetched := st.fetched ++ [s] } []
        hag.2.2 hn'.2 hcl.2 hokd.2 (by omega) hdisj'
      rw [show SitemapTree.source (SitemapTree.index s cs) = s from rfl,
        resolve_index env s depth st s (childSources cs) hv hag.1 hidx hokd.1 hxi]
      simp only [hloop]
      rw [Prod.mk.injEq]
      constructor
      · rw [show leafURLs (SitemapTree.index s cs) = leafURLsForest cs from rfl,
          List.nil_append]
      · rw [St.mk.injEq]
        refine ⟨rfl, ?_, rfl⟩
        rw [show sourcesOf (SitemapTree.index s cs) = s :: sourcesForest cs from rfl]
        simp

theorem resolveForest_ok (env : Env) (l : SitemapForest) (depth : Nat) (st : St)
    (acc : List String)
    (ha : envAgreesForest env l) (hn : (sourcesForest l).Nodup)
    (hc : cleanForest l = true) (hok : forestOK l depth = true)
    (hdep : depth ≤ MAX_SITEMAP_DEPTH)
    (hdisj : ∀ s ∈ sourcesForest l, s ∉ st.visited) :
    childLoop (fun c s => extract_all_urls env c depth s) (childSources l) acc st
      = (acc ++ leafURLsForest l,
         { visited := visitForest l st.visited,
           fetched := st.fetched ++ sourcesForest l, log := st.log }) := by
  cases l with
  | nil =>
      simp only [childSources, childLoop, leafURLsForest, visitForest, sourcesForest,
        List.append_nil]
  | cons t ts =>
      have hagf : envAgrees env t ∧ envAgreesForest env ts := ha
      have hn2 : (sourcesOf t).Nodup ∧ (sourcesForest ts).Nodup
          ∧ (sourcesOf t).Disjoint (sourcesForest ts) := by
        rw [show sourcesForest (SitemapForest.cons t ts)
            = sourcesOf t ++ sourcesForest ts from rfl, List.nodup_append] at hn
        exact hn
      have hcf : cleanTree t = true ∧ cleanForest ts = true := by
        rw [show cleanForest (SitemapForest.cons t ts) = (cleanTree t && cleanForest ts) from rfl,
          Bool.and_eq_true] at hc
        exact hc
      have hof : treeOK t depth = true ∧ forestOK ts depth = true := by
        rw [show forestOK (SitemapForest.cons t ts) depth
            = (treeOK t depth && forestOK ts depth) from rfl, Bool.and_eq_true] at hok
        exact hok
      have hdt : ∀ s ∈ sourcesOf t, s ∉ st.visited := fun s hs =>
        hdisj s (by
          rw [show sourcesForest (SitemapForest.cons t ts)
              = sourcesOf t ++ sourcesForest ts from rfl]
          exact List.mem_append_left _ hs)
      have htr := resolveTree_ok env t depth st hagf.1 hn2.1 hcf.1 hof.1 hdep hdt
      have hdts : ∀ x ∈ sourcesForest ts,
          x ∉ (visitTree t st.visited) := by
        intro x hx hmem
        rcases (mem_visitTree t st.visited x).mp hmem with h1 | h1
        · exact hn2.2.2 h1 hx
        · exact hdisj x (by
            rw [show sourcesForest (SitemapForest.cons t ts)
                = sourcesOf t ++ sourcesForest ts from rfl]
            exact List.mem_append_right _ hx) h1
      have hrec := resolveForest_ok env ts depth
        { visited := visitTree t st.visited,
          fetched := st.fetched ++ sourcesOf t, log := st.log }
        (acc ++ leafURLs t)
        hagf.2 hn2.2.1 hcf.2 hof.2 hdep hdts
      rw [show childSources (SitemapForest.cons t ts)
          = t.source :: childSources ts from rfl]
      simp only [childLoop, htr, hrec]
      rw [Prod.mk.injEq]
      constructor
      · rw [show leafURLsForest (SitemapForest.cons t ts)
            = leafURLs t ++ leafURLsForest ts from rfl, List.append_assoc]
      · rw [St.mk.injEq]
        refine ⟨rfl, ?_, rfl⟩
        rw [show sourcesForest (SitemapForest.cons t ts)
            = sourcesOf t ++ sourcesForest ts from rfl, List.append_assoc]

end

mutual

theorem treeAssoc_keys (t : SitemapTree) : (treeAssoc t).map Prod.fst = sourcesOf t := by
  cases t with
  | leaf s urls => rfl
  | index s cs =>
      rw [show treeAssoc (SitemapTree.index s cs)
          = (s, indexDoc (childSources cs)) :: forestAssoc cs from rfl,
        List.map_cons, forestAssoc_keys cs]
      rfl

theorem forestAssoc_keys (l : SitemapForest) :
    (forestAssoc l).map Prod.fst = sourcesForest l := by
  cases l with
  | nil => rfl
  | cons t ts =>
      rw [show forestAssoc (SitemapForest.cons t ts)
          = treeAssoc t ++ forestAssoc ts from rfl,
        List.map_append, treeAssoc_keys t, forestAssoc_keys ts]
      rfl

end

theorem lookup_self (A : List (String × XmlElem)) (hk : (A.map Prod.fst).Nodup) :
    ∀ p ∈ A, A.lookup p.1 = some p.2 := by
  induction A with
  | nil => intro p hp; cases hp
  | cons q rest ih =>
      rcases q with ⟨k, v⟩
      rw [List.map_cons, List.nodup_cons] at hk
      intro p hp
      rcases List.mem_cons.mp hp with rfl | hp'
      · simp [List.lookup]
      · have hne : (p.1 == k) = false := by
          rw [beq_eq_false_iff_ne]
          intro he
          have hmem : p.1 ∈ rest.map Prod.fst := List.mem_map_of_mem Prod.fst hp'
          rw [he] at hmem
          exact hk.1 hmem
        simpa [List.lookup, hne] using ih hk.2 p hp'

mutual

theorem mkEnv_agrees_tree (A : List (String × XmlElem)) (t : SitemapTree)
    (h : ∀ p ∈ treeAssoc t, A.lookup p.1 = some p.2) : envAgrees (mkEnv A) t := by
  cases t with
  | leaf s urls =>
      have h1 : A.lookup s = some (leafDoc urls) :=
        h (s, leafDoc urls) (by rw [show treeAssoc (SitemapTree.leaf s urls)
          = [(s, leafDoc urls)] from rfl]; exact List.mem_singleton_self _)
      exact ⟨by simp [mkEnv, h1], by simp [mkEnv, h1]⟩
  | index s cs =>
      have h1 : A.lookup s = some (indexDoc (childSources cs)) :=
        h (s, indexDoc (childSources cs)) (by
          rw [show treeAssoc (SitemapTree.index s cs)
            = (s, indexDoc (childSources cs)) :: forestAssoc cs from rfl]
          exact List.mem_cons_self _ _)
      refine ⟨by simp [mkEnv, h1], by simp [mkEnv, h1], ?_⟩
      exact mkEnv_agrees_forest A cs (fun p hp => h p (by
        rw [show treeAssoc (SitemapTree.index s cs)
          = (s, indexDoc (childSources cs)) :: forestAssoc cs from rfl]
        exact List.mem_cons_of_mem _ hp))

theorem mkEnv_agrees_forest (A : List (String × XmlElem)) (l : SitemapForest)
    (h : ∀ p ∈ forestAssoc l, A.lookup p.1 = some p.2) : envAgreesForest (mkEnv A) l := by
  cases l with
  | nil => exact trivial
  | cons t ts =>
      refine ⟨?_, ?_⟩
      · exact mkEnv_agrees_tree A t (fun p hp => h p (by
          rw [show forestAssoc (SitemapForest.cons t ts)
            = treeAssoc t ++ forestAssoc ts from rfl]
          exact List.mem_append_left _ hp))
      · exact mkEnv_agrees_forest A ts (fun p hp => h p (by
          rw [show forestAssoc (SitemapForest.cons t ts)
            = treeAssoc t ++ forestAssoc ts from rfl]
          exact List.mem_append_right _ hp))

end

theorem treeEnv_agrees (t : SitemapTree) (hn : (sourcesOf t).Nodup) :
    envAgrees (treeEnv t) t :=
  mkEnv_agrees_tree (treeAssoc t) t
    (lookup_self (treeAssoc t) (by rw [treeAssoc_keys t]; exact hn))

theorem loc_tag_eq (rootTag : String) :
    (if pyStartsWith rootTag ("\x7b") then
      "\x7b" ++ pyStripChar '{' (pySplitHead '}' rootTag) ++ "\x7dloc"
    else ("loc")) = nsPre rootTag ++ ("loc") := by
  unfold nsPre
  by_cases h : pyStartsWith rootTag ("\x7b")
  · rw [if_pos h, if_pos h,
      show ("\x7dloc" : String) = "\x7d" ++ ("loc") from rfl]
    simp [String.append_assoc]
  · rw [if_neg h, if_neg h]
    simp

theorem descElems_eq (e : XmlElem) : descElems e = descList e.children := by
  cases e
  rfl

theorem findallList_eq_filter (target : String) (l : XmlForest) :
    findallList target l = (descList l).filter (fun e => e.tag == target) := by
  cases l with
  | nil => rfl
  | cons e rest =>
      rcases e with ⟨t, tx, cs⟩
      rw [show findallList target (XmlForest.cons (XmlElem.mk t tx cs) rest)
          = (if t = target then [XmlElem.mk t tx cs] else [])
            ++ findallList target cs ++ findallList target rest from rfl,
        show descList (XmlForest.cons (XmlElem.mk t tx cs) rest)
          = XmlElem.mk t tx cs :: (descList cs ++ descList rest) from rfl,
        List.filter_cons, List.filter_append,
        findallList_eq_filter target cs, findallList_eq_filter target rest]
      by_cases h : t = target
      · simp [XmlElem.tag, h]
      · simp [XmlElem.tag, h]

theorem str_append_left_cancel (p a b : String) : p ++ a = p ++ b ↔ a = b := by
  constructor
  · intro h
    have hd : (p ++ a).data = (p ++ b).data := congrArg String.data h
    rw [String.data_append, String.data_append] at hd
    have hab : a.data = b.data := List.append_cancel_left hd
    exact congrArg String.mk hab
  · intro h
    rw [h]

theorem attemptLoop_fail (l : List AttemptOutcome) (acc : Option String)
    (hfail : ∀ a ∈ l, attemptSuccess a = false) :
    attemptLoop l acc = Except.error (l.foldl
      (fun acc2 a =>
        match a with
        | AttemptOutcome.raised m => some m
        | AttemptOutcome.response _ _ => acc2) acc) := by
  induction l generalizing acc with
  | nil => rfl
  | cons a rest ih =>
      cases a with
      | response status text =>
          have hs : ¬ status = 200 := by
            have := hfail (AttemptOutcome.response status text) (List.mem_cons_self _ _)
            rw [attemptSuccess] at this
            simpa using this
          rw [show attemptLoop (AttemptOutcome.response status text :: rest) acc
              = if status = 200 then Except.ok text else attemptLoop rest acc from rfl,
            if_neg hs, List.foldl_cons]
          exact ih acc (fun x hx => hfail x (List.mem_cons_of_mem _ hx))
      | raised m =>
          rw [show attemptLoop (AttemptOutcome.raised m :: rest) acc
              = attemptLoop rest (some m) from rfl, List.foldl_cons]
          exact ih (some m) (fun x hx => hfail x (List.mem_cons_of_mem _ hx))

/-- C1 (amended — the original claim fails once an index node reaches the
depth limit): for every acyclic tree of sitemap documents with pairwise
distinct clean sources whose index nodes all lie at depth strictly below
`MAX_SITEMAP_DEPTH`, `extract_all_urls` on the root returns exactly the
concatenation, in depth-first document order, of the URL lists of all
leaf documents of the tree, regardless of tree shape. -/
theorem claim_C1_acyclic_tree_resolution (t : SitemapTree)
    (hn : (sourcesOf t).Nodup) (hc : cleanTree t = true)
    (hok : treeOK t 0 = true) :
    (extract_all_urls (treeEnv t) t.source 0 initSt).1 = Except.ok (leafURLs t) := by
  rw [resolveTree_ok (treeEnv t) t 0 initSt (treeEnv_agrees t hn) hn hc hok
    (by unfold MAX_SITEMAP_DEPTH; omega)
    (fun s _ hmem => absurd hmem (List.not_mem_nil s))]

/-- C1 counterexample: `deepTree` is an acyclic index tree (distinct clean
sources) whose single leaf holds `u`, yet resolving it returns the empty
list because its deepest index node sits at depth 20 and is pruned by the
depth guard — so the unqualified claim `for every acyclic index tree ...
regardless of tree shape` is false on the code. -/
theorem claim_C1_counterexample :
    (sourcesOf deepTree).Nodup ∧ cleanTree deepTree = true
      ∧ leafURLs deepTree = ["u"]
      ∧ (extract_all_urls (treeEnv deepTree) deepTree.source 0 initSt).1
          = Except.ok []
      ∧ (Except.ok [] : Except PyErr (List String))
          ≠ Except.ok (leafURLs deepTree) := by
  decide

/-- C1 witness: the amended theorem applied to a concrete two-leaf index
tree, every hypothesis discharged by evaluation. -/
theorem claim_C1_witness :
    (sourcesOf tree1).Nodup ∧ cleanTree tree1 = true ∧ treeOK tree1 0 = true
      ∧ (extract_all_urls (treeEnv tree1) tree1.source 0 initSt).1
          = Except.ok (leafURLs tree1) :=
  ⟨by decide, by decide, by decide,
    claim_C1_acyclic_tree_resolution tree1 (by decide) (by decide) (by decide)⟩

/-- C2: during one top-level `extract_all_urls` call, every Source
Identifier is passed to `read_sitemap` — and hence fetched and fed to the
classify/extract parsing pipeline — at most once, whatever document graph
the environment realizes, diamond references and cycles included: the
fetch trace of the call is duplicate-free. -/
theorem claim_C2_fetch_at_most_once (env : Env) (source S : String) :
    ((extract_all_urls env source 0 initSt).2.fetched).count S ≤ 1 := by
  have h := extractFuelInv env (fuelFor 0) source 0 initSt
    ⟨List.nodup_nil, fun s hs => absurd hs (List.not_mem_nil s)⟩
  exact List.nodup_iff_count_le_one.mp h.1.1 S

/-- C3 (amended — the original claim fails on whitespace-only `loc` text):
for every leaf document whose descendants all carry the root's namespace
prefix (or none), `extract_urls_from_sitemap` returns, in document order,
one string per descendant with local tag name `loc` and present non-empty
text, namely that text stripped of surrounding whitespace; elements with
absent or empty text are excluded, but an element whose text is
whitespace-only is NOT excluded — it contributes the empty string. -/
theorem claim_C3_leaf_extraction (parse : String → Except String XmlElem)
    (s : String) (root : XmlElem)
    (hp : parse s = Except.ok root)
    (hhomog : ∀ e ∈ descElems root, e.tag = nsPre root.tag ++ localName e.tag) :
    extract_urls_from_sitemap parse s
      = Except.ok (((descElems root).filter
          (fun e => localName e.tag == ("loc"))).filterMap
          (fun e =>
            match e.text with
            | none => none
            | some t => if t = ("") then none else some (pyStrip t))) := by
  have hcong : ∀ e ∈ descList root.children,
      (e.tag == nsPre root.tag ++ ("loc")) = (localName e.tag == ("loc")) := by
    intro e he
    have h1 := hhomog e (by rw [descElems_eq]; exact he)
    by_cases h2 : localName e.tag = ("loc")
    · have h4 : e.tag = nsPre root.tag ++ ("loc") := by rw [h1, h2]
      have hL : (e.tag == nsPre root.tag ++ ("loc")) = true := by
        simp [h4]
      have hR : (localName e.tag == ("loc")) = true := by
        simp [h2]
      rw [hL, hR]
    · have h3 : ¬ e.tag = nsPre root.tag ++ ("loc") := by
        rw [h1]
        intro hcontra
        exact h2 ((str_append_left_cancel _ _ _).mp hcontra)
      simp [h2, h3]
  simp only [extract_urls_from_sitemap, hp]
  rw [loc_tag_eq root.tag]
  rw [show findallDesc (nsPre root.tag ++ ("loc")) root
      = findallList (nsPre root.tag ++ ("loc")) root.children from by cases root; rfl]
  rw [findallList_eq_filter, List.filter_congr hcong, ← descElems_eq]

/-- C3 counterexample: on a leaf with one ordinary `loc` and one
whitespace-only `loc` the code returns the empty string for the latter
(Python truthiness keeps `"   "`, then strips it), while the claimed
behavior — whitespace-only text excluded, per the spec-modelled
`spec_extract_urls` — drops it; the two disagree. -/
theorem claim_C3_counterexample :
    extract_urls_from_sitemap parseWs ("leaf.xml")
        = Except.ok ["https://a.test/x", ""]
      ∧ spec_extract_urls wsDoc = ["https://a.test/x"]
      ∧ (Except.ok ["https://a.test/x", ""] : Except PyErr (List String))
          ≠ Except.ok ["https://a.test/x"] := by
  decide

/-- C3 witness: the amended theorem applied to a concrete namespaced leaf
document whose `loc` text carries surrounding whitespace. -/
theorem claim_C3_witness :
    parseNsLeaf ("ns.xml") = Except.ok nsLeafDoc
      ∧ (∀ e ∈ descElems nsLeafDoc, e.tag = nsPre nsLeafDoc.tag ++ localName e.tag)
      ∧ extract_urls_from_sitemap parseNsLeaf ("ns.xml")
          = Except.ok (((descElems nsLeafDoc).filter
              (fun e => localName e.tag == ("loc"))).filterMap
              (fun e =>
                match e.text with
                | none => none
                | some t => if t = ("") then none else some (pyStrip t)))
      ∧ extract_urls_from_sitemap parseNsLeaf ("ns.xml")
          = Except.ok ["https://a.test/x"] := by
  refine ⟨rfl, by decide,
    claim_C3_leaf_extraction parseNsLeaf ("ns.xml") nsLeafDoc rfl (by decide),
    by decide⟩

/-- C4 (amended — the original claim is false: the error does not abort
the run): a leaf document that fails to parse makes the extractor raise
`typer.Exit(1)`, but `extract_all_urls` catches it in the per-source
`except Exception` handler (typer.Exit derives from RuntimeError), emits
the warning of line 275 and returns the empty list for that source; the
resolution is not aborted. -/
theorem claim_C4_leaf_parse_error_caught (env : Env) (source : String)
    (depth : Nat) (st : St) (content m : String)
    (hv : source ∉ st.visited)
    (hf : env.fetch source = FetchResult.ok content)
    (hp : env.parse content = Except.error m) :
    extract_all_urls env source depth st
      = (Except.ok [],
         { visited := source :: st.visited, fetched := st.fetched ++ [source],
           log := st.log ++ [warnParseMsg source (PyErr.exit 1)] }) := by
  have hidx : is_sitemap_index env.parse content = false := by
    simp [is_sitemap_index, hp]
  have hx : extract_urls_from_sitemap env.parse content
      = Except.error (PyErr.exit 1) := by
    simp [extract_urls_from_sitemap, hp]
  exact resolve_leaf_err env source depth st content (PyErr.exit 1) hv hf hidx hx

/-- C4 counterexample: with a malformed leaf `bad` preceding a good leaf
`good` under one index, the whole resolution still returns ok with the
good leaf's URLs and only a warning for `bad` — the ParseError neither
escapes the resolver nor terminates the run, refuting the claim that it
is propagated as fatal. -/
theorem claim_C4_counterexample :
    (extract_all_urls env4 ("root") 0 initSt).1 = Except.ok ["u2"]
      ∧ (extract_all_urls env4 ("root") 0 initSt).2.log
          = [warnParseMsg ("bad") (PyErr.exit 1)] := by
  decide

/-- C4 witness: the amended theorem applied to the malformed leaf of
`env4` directly. -/
theorem claim_C4_witness :
    env4.fetch ("bad") = FetchResult.ok ("bad")
      ∧ env4.parse ("bad") = Except.error ("not well-formed (invalid token)")
      ∧ extract_all_urls env4 ("bad") 0 initSt
          = (Except.ok [],
             { visited := ["bad"], fetched := ["bad"],
               log := [warnParseMsg ("bad") (PyErr.exit 1)] }) := by
  refine ⟨by decide, by decide, ?_⟩
  exact claim_C4_leaf_parse_error_caught env4 ("bad") 0 initSt ("bad")
    ("not well-formed (invalid token)") (by decide) (by decide) (by decide)

/-- C5 (amended — the original claim is false: the classifier does not
fail): on every malformed document the classifier catches the ParseError
internally and returns False, classifying the document as not-an-index;
the parse failure only surfaces later, in the extractor. -/
theorem claim_C5_classifier_swallows_parse_error
    (parse : String → Except String XmlElem) (s m : String)
    (hp : parse s = Except.error m) :
    is_sitemap_index parse s = false := by
  simp [is_sitemap_index, hp]

/-- C5 counterexample: on a malformed document the classifier returns the
classification False instead of failing with a ParseError, refuting
`fails with a ParseError rather than returning a classification`. -/
theorem claim_C5_counterexample :
    parseFail ("<not-xml")
        = Except.error ("not well-formed (invalid token): line 1, column 0")
      ∧ is_sitemap_index parseFail ("<not-xml") = false := by
  decide

/-- C5 witness -/
theorem claim_C5_witness :
    parseFail ("x") = Except.error ("not well-formed (invalid token): line 1, column 0")
      ∧ is_sitemap_index parseFail ("x") = false :=
  ⟨rfl, claim_C5_classifier_swallows_parse_error parseFail ("x") _ rfl⟩

/-- C6 (amended — the original claim's propagation half is false): a
top-level fetch failure (`requests.RequestException`) is caught inside
`extract_all_urls` itself — warning, empty result — and is never
propagated to the caller; the process still exits non-zero only because
the empty URL list triggers `typer.Exit(1)` in `main`. -/
theorem claim_C6_toplevel_fetch_failure (env : Env) (source m : String)
    (hf : env.fetch source = FetchResult.reqExc m) :
    (extract_all_urls env source 0 initSt).1 = Except.ok []
      ∧ (extract_all_urls env source 0 initSt).2.log = [warnFetchMsg source m]
      ∧ main_run env source = 1 := by
  have h := resolve_fetch_fail env source 0 initSt m (List.not_mem_nil source) hf
  refine ⟨by rw [h], by rw [h]; rfl, ?_⟩
  unfold main_run
  rw [h]
  rfl

/-- C6 counterexample: every fetch fails in `env6`, yet the top-level
resolver call returns `Except.ok []` — no error leaves the resolver —
refuting `propagated out of the resolver to the caller`; the non-zero
exit code arises from the zero-URLs check. -/
theorem claim_C6_counterexample :
    (extract_all_urls env6 ("https://x.test/sitemap.xml") 0 initSt).1
        = Except.ok []
      ∧ main_run env6 ("https://x.test/sitemap.xml") = 1 := by
  decide

/-- C6 witness -/
theorem claim_C6_witness :
    env6.fetch ("https://x.test/sitemap.xml") = FetchResult.reqExc ("HTTP 403")
      ∧ (extract_all_urls env6 ("https://x.test/sitemap.xml") 0 initSt).1
          = Except.ok []
      ∧ (extract_all_urls env6 ("https://x.test/sitemap.xml") 0 initSt).2.log
          = [warnFetchMsg ("https://x.test/sitemap.xml") ("HTTP 403")]
      ∧ main_run env6 ("https://x.test/sitemap.xml") = 1 := by
  have h := claim_C6_toplevel_fetch_failure env6 ("https://x.test/sitemap.xml")
    ("HTTP 403") (by decide)
  exact ⟨by decide, h.1, h.2.1, h.2.2⟩

/-- C7: when all three automated attempts fail and no interactive
capability is available, `read_sitemap` raises a RequestException whose
message carries the final `last_exc`, and `extract_all_urls` for that
source catches it, records the warning of line 254 and returns the empty
list — the error never reaches the top level. -/
theorem claim_C7_retry_exhaustion (attempts : List AttemptOutcome)
    (source : String) (env : Env) (depth : Nat) (st : St)
    (h3 : attempts.length = 3)
    (hfail : ∀ a ∈ attempts, attemptSuccess a = false)
    (hv : source ∉ st.visited)
    (hf : env.fetch source
      = FetchResult.reqExc (fetchFailMsg source (lastExcOf attempts))) :
    read_sitemap_remote attempts none source
        = FetchResult.reqExc (fetchFailMsg source (lastExcOf attempts))
      ∧ extract_all_urls env source depth st
          = (Except.ok [],
             { visited := source :: st.visited, fetched := st.fetched ++ [source],
               log := st.log ++ [warnFetchMsg source
                 (fetchFailMsg source (lastExcOf attempts))] }) := by
  constructor
  · have hloop := attemptLoop_fail (attempts.take 3) none
      (fun a ha => hfail a (List.mem_of_mem_take ha))
    simp only [read_sitemap_remote, hloop]
    rfl
  · exact resolve_fetch_fail env source depth st _ hv hf

/-- C7 witness: two non-success statuses then an exception, no Playwright;
the raised message carries the exception as the last underlying cause. -/
theorem claim_C7_witness :
    attempts7.length = 3
      ∧ (∀ a ∈ attempts7, attemptSuccess a = false)
      ∧ lastExcOf attempts7 = some ("ConnectionError: connection reset")
      ∧ read_sitemap_remote attempts7 none ("https://x.test/sitemap.xml")
          = FetchResult.reqExc
              (fetchFailMsg ("https://x.test/sitemap.xml") (lastExcOf attempts7))
      ∧ extract_all_urls env7 ("https://x.test/sitemap.xml") 0 initSt
          = (Except.ok [],
             { visited := ["https://x.test/sitemap.xml"],
               fetched := ["https://x.test/sitemap.xml"],
               log := [warnFetchMsg ("https://x.test/sitemap.xml")
                 (fetchFailMsg ("https://x.test/sitemap.xml")
                   (lastExcOf attempts7))] }) := by
  have h := claim_C7_retry_exhaustion attempts7 ("https://x.test/sitemap.xml")
    env7 0 initSt (by decide) (by decide) (by decide) (by decide)
  exact ⟨by decide, by decide, by decide, h.1, h.2⟩

/-- C8: a call whose fetched document is an index at depth at least
`MAX_SITEMAP_DEPTH` (20) emits the depth warning and returns the empty
list — the pruned branch contributes zero URLs and no exception arises
from the depth alone. -/
theorem claim_C8_depth_limit (env : Env) (source content : String)
    (depth : Nat) (st : St)
    (hv : source ∉ st.visited)
    (hf : env.fetch source = FetchResult.ok content)
    (hidx : is_sitemap_index env.parse content = true)
    (hd : MAX_SITEMAP_DEPTH ≤ depth) :
    extract_all_urls env source depth st
      = (Except.ok [],
         { visited := source :: st.visited, fetched := st.fetched ++ [source],
           log := st.log ++ [depthMsg source] }) :=
  resolve_depth env source depth st content hv hf hidx hd

/-- C8 witness: an index document entered exactly at the depth limit. -/
theorem claim_C8_witness :
    envC8.fetch ("i") = FetchResult.ok ("i")
      ∧ is_sitemap_index envC8.parse ("i") = true
      ∧ extract_all_urls envC8 ("i") 20 initSt
          = (Except.ok [],
             { visited := ["i"], fetched := ["i"], log := [depthMsg ("i")] }) := by
  have h := claim_C8_depth_limit envC8 ("i") ("i") 20 initSt
    (by decide) (by decide) (by decide) (by decide)
  exact ⟨by decide, by decide, h⟩

/-- C9: the cycle guard returns the empty list with the state completely
unchanged — nothing fetched, nothing logged, never fatal — for any source
already in the visited set; and resolving a concrete index that
references itself terminates with exactly the URLs of its non-cyclic
branches. -/
theorem claim_C9_cycle_guard :
    (∀ (env : Env) (source : String) (depth : Nat) (st : St),
        source ∈ st.visited →
        extract_all_urls env source depth st = (Except.ok [], st))
      ∧ (extract_all_urls envC9 ("root") 0 initSt).1 = Except.ok ["u1", "u2"] := by
  constructor
  · exact fun env source depth st h => resolve_cycle env source depth st h
  · decide

/-- C9 witness -/
theorem claim_C9_witness :
    (("root" : String) ∈ ["root", "x"])
      ∧ extract_all_urls envC9 ("root") 5
          { visited := ["root", "x"], fetched := [], log := [] }
          = (Except.ok [], { visited := ["root", "x"], fetched := [], log := [] }) :=
  ⟨by decide, claim_C9_cycle_guard.1 envC9 ("root") 5
    { visited := ["root", "x"], fetched := [], log := [] } (by decide)⟩

/-- C10: the index-child extractor and the leaf URL extractor are the
same function: on every parser and every input string they agree — the
same list on well-formed XML, the same raised `typer.Exit(1)` on
malformed XML. -/
theorem claim_C10_extractors_identical
    (parse : String → Except String XmlElem) (x : String) :
    extract_sitemaps_from_index parse x = extract_urls_from_sitemap parse x := rfl
